import Mathlib

/-!
Verification of the WaveTracker core against its specification.

This file gives a shallow embedding, in Lean 4, of the parts of the
WaveTracker source that the specification's claims are about:

* `src/core/imu/imu_protocol.py` — the binary IMU telemetry decoder
  (`IMUProtocol.parse_imu_data`, `_parse_int16_from_buffer`,
  `_parse_int24_from_buffer`);
* `src/core/imu/imu_writer_thread.py` and
  `src/core/camera/video_writer_thread.py` — the consumer writer thread
  (both files implement the same bookkeeping, keyed by a device address
  resp. a camera id, so the embedding is generic in the key type);
* `src/core/imu/imu_manager.py` — device scan, connect and the bounded
  reconnection loop;
* `src/core/camera/camera_manager.py` — `connect_camera`;
* `src/core/multiprocessing/process_manager.py` — `send_command` and
  `send_command_to_all`.

Python byte strings are modelled as `List Nat`; an indexing operation that
would raise `IndexError` is modelled in an `Except String` monad, so that
the totality of the decoder (its `try`/`except` never firing) is a theorem
rather than an artifact of the embedding.  Python `float` scale constants
are modelled as exact rationals; the claims under study concern which
fields are produced, never floating-point rounding.  Blocking, threads and
locks are modelled by sequential interleaving of the operations that the
source performs under its per-collection mutex.
-/

namespace WaveTracker

/-! ## Byte buffers

A byte buffer is a `List Nat` (each entry meant to be `< 256`).  `getByte`
models Python `buf[i]` for a non-negative index: out of range raises. -/

def getByte (buf : List Nat) (i : Nat) : Except String Nat :=
  match buf.get? i with
  | some b => Except.ok b
  | none => Except.error "IndexError"

/-! ## IMU protocol decoder (`src/core/imu/imu_protocol.py`)

Scale constants from `IMUProtocol` (lines 22–29), as exact rationals. -/

def SCALE_ACCEL : ℚ := 0.00478515625
def SCALE_ANGLE_SPEED : ℚ := 0.06103515625
def SCALE_QUAT : ℚ := 0.000030517578125
def SCALE_ANGLE : ℚ := 0.0054931640625
def SCALE_MAG : ℚ := 0.15106201171875
def SCALE_TEMPERATURE : ℚ := 0.01
def SCALE_AIR_PRESSURE : ℚ := 0.0002384185791
def SCALE_HEIGHT : ℚ := 0.0010728836

/-- Model of `IMUProtocol._parse_int16_from_buffer` (lines 242–263):
returns 0 when the offset is out of range, otherwise the little-endian
16-bit two's-complement value at `offset`. -/
def parse_int16_from_buffer (buf : List Nat) (offset : Nat) : Except String Int :=
  if buf.length ≤ offset + 1 then Except.ok 0
  else do
    let hi ← getByte buf (offset + 1)
    let lo ← getByte buf offset
    let value : Nat := (hi <<< 8) ||| lo
    pure (if 32768 ≤ value then (value : Int) - 65536 else (value : Int))

/-- Model of `IMUProtocol._parse_int24_from_buffer` (lines 265–286):
returns 0 when the offset is out of range, otherwise the little-endian
24-bit value at `offset`, sign-extended from bit 23 (the source ORs with
`0xff000000` and reinterprets through `np.int32`). -/
def parse_int24_from_buffer (buf : List Nat) (offset : Nat) : Except String Int :=
  if buf.length ≤ offset + 2 then Except.ok 0
  else do
    let b2 ← getByte buf (offset + 2)
    let b1 ← getByte buf (offset + 1)
    let b0 ← getByte buf offset
    let value : Nat := (b2 <<< 16) ||| (b1 <<< 8) ||| b0
    let value32 : Nat := if value &&& 0x800000 == 0x800000 then value ||| 0xff000000 else value
    pure (if 2 ^ 31 ≤ value32 then (value32 : Int) - 2 ^ 32 else (value32 : Int))

/-- Three-component vector of scaled readings. -/
structure Vec3 where
  x : ℚ
  y : ℚ
  z : ℚ
deriving DecidableEq

/-- Orientation quaternion. -/
structure QuatV where
  w : ℚ
  x : ℚ
  y : ℚ
  z : ℚ
deriving DecidableEq

/-- Euler angles. -/
structure AngleV where
  roll : ℚ
  pitch : ℚ
  yaw : ℚ
deriving DecidableEq

/-- Motion classification flags from the step-count field. -/
structure MotionV where
  walking : Bool
  running : Bool
  biking : Bool
  driving : Bool
deriving DecidableEq

/-- GPIO mode and value nibbles. -/
structure GpioV where
  mode : Nat
  value : Nat
deriving DecidableEq

/-- Result of `parse_imu_data`: the Python data dict.  `timestamp` and
`control` are always present; every other key is optional and absent
(`none`) unless its feature bit selected it and it was in bounds. -/
structure ImuData where
  timestamp : Nat
  control : Nat
  linear_accel : Option Vec3 := none
  accel_with_gravity : Option Vec3 := none
  gyro : Option Vec3 := none
  mag : Option Vec3 := none
  temperature : Option ℚ := none
  pressure : Option ℚ := none
  height : Option ℚ := none
  quat : Option QuatV := none
  angle : Option AngleV := none
  imu_offset : Option Vec3 := none
  steps : Option Nat := none
  motion : Option MotionV := none
  high_precision_linear_accel : Option Vec3 := none
  adc : Option Nat := none
  gpio : Option GpioV := none
deriving DecidableEq

/-- One optional field of the packet: its feature bit, the number of bytes
it consumes, and the reads it performs at the running offset `L` (the
setter mirrors the body of the corresponding `if` in `parse_imu_data`). -/
structure FieldStep where
  bit : Nat
  size : Nat
  set : List Nat → Nat → Except String (ImuData → ImuData)

/-- Field for control bit 0x0001 (lines 109–115): linear acceleration. -/
def setLinearAccel (buf : List Nat) (L : Nat) : Except String (ImuData → ImuData) := do
  let ax ← parse_int16_from_buffer buf L
  let ay ← parse_int16_from_buffer buf (L + 2)
  let az ← parse_int16_from_buffer buf (L + 4)
  pure fun d => { d with linear_accel := some ⟨ax * SCALE_ACCEL, ay * SCALE_ACCEL, az * SCALE_ACCEL⟩ }

/-- Field for control bit 0x0002 (lines 118–124): acceleration with gravity. -/
def setAccelWithGravity (buf : List Nat) (L : Nat) : Except String (ImuData → ImuData) := do
  let ax ← parse_int16_from_buffer buf L
  let ay ← parse_int16_from_buffer buf (L + 2)
  let az ← parse_int16_from_buffer buf (L + 4)
  pure fun d => { d with accel_with_gravity := some ⟨ax * SCALE_ACCEL, ay * SCALE_ACCEL, az * SCALE_ACCEL⟩ }

/-- Field for control bit 0x0004 (lines 127–133): angular rate. -/
def setGyro (buf : List Nat) (L : Nat) : Except String (ImuData → ImuData) := do
  let gx ← parse_int16_from_buffer buf L
  let gy ← parse_int16_from_buffer buf (L + 2)
  let gz ← parse_int16_from_buffer buf (L + 4)
  pure fun d => { d with gyro := some ⟨gx * SCALE_ANGLE_SPEED, gy * SCALE_ANGLE_SPEED, gz * SCALE_ANGLE_SPEED⟩ }

/-- Field for control bit 0x0008 (lines 136–142): magnetic field. -/
def setMag (buf : List Nat) (L : Nat) : Except String (ImuData → ImuData) := do
  let mx ← parse_int16_from_buffer buf L
  let my ← parse_int16_from_buffer buf (L + 2)
  let mz ← parse_int16_from_buffer buf (L + 4)
  pure fun d => { d with mag := some ⟨mx * SCALE_MAG, my * SCALE_MAG, mz * SCALE_MAG⟩ }

/-- Field for control bit 0x0010 (lines 145–162): temperature (16-bit),
then pressure and height (24-bit each). -/
def setTempPressureHeight (buf : List Nat) (L : Nat) : Except String (ImuData → ImuData) := do
  let t ← parse_int16_from_buffer buf L
  let p ← parse_int24_from_buffer buf (L + 2)
  let h ← parse_int24_from_buffer buf (L + 5)
  pure fun d => { d with temperature := some (t * SCALE_TEMPERATURE),
                         pressure := some (p * SCALE_AIR_PRESSURE),
                         height := some (h * SCALE_HEIGHT) }

/-- Field for control bit 0x0020 (lines 165–172): orientation quaternion. -/
def setQuat (buf : List Nat) (L : Nat) : Except String (ImuData → ImuData) := do
  let qw ← parse_int16_from_buffer buf L
  let qx ← parse_int16_from_buffer buf (L + 2)
  let qy ← parse_int16_from_buffer buf (L + 4)
  let qz ← parse_int16_from_buffer buf (L + 6)
  pure fun d => { d with quat := some ⟨qw * SCALE_QUAT, qx * SCALE_QUAT, qy * SCALE_QUAT, qz * SCALE_QUAT⟩ }

/-- Field for control bit 0x0040 (lines 175–181): Euler angles. -/
def setAngle (buf : List Nat) (L : Nat) : Except String (ImuData → ImuData) := do
  let r ← parse_int16_from_buffer buf L
  let p ← parse_int16_from_buffer buf (L + 2)
  let yw ← parse_int16_from_buffer buf (L + 4)
  pure fun d => { d with angle := some ⟨r * SCALE_ANGLE, p * SCALE_ANGLE, yw * SCALE_ANGLE⟩ }

/-- Field for control bit 0x0080 (lines 184–190): position offset,
divided by 1000. -/
def setOffset (buf : List Nat) (L : Nat) : Except String (ImuData → ImuData) := do
  let ox ← parse_int16_from_buffer buf L
  let oy ← parse_int16_from_buffer buf (L + 2)
  let oz ← parse_int16_from_buffer buf (L + 4)
  pure fun d => { d with imu_offset := some ⟨ox / 1000, oy / 1000, oz / 1000⟩ }

/-- Field for control bit 0x0100 (lines 193–208): 32-bit step count then a
motion-state byte. -/
def setSteps (buf : List Nat) (L : Nat) : Except String (ImuData → ImuData) := do
  let b3 ← getByte buf (L + 3)
  let b2 ← getByte buf (L + 2)
  let b1 ← getByte buf (L + 1)
  let b0 ← getByte buf L
  let stepsVal : Nat := (b3 <<< 24) ||| (b2 <<< 16) ||| (b1 <<< 8) ||| b0
  let ms ← getByte buf (L + 4)
  pure fun d => { d with steps := some stepsVal,
                         motion := some ⟨decide (ms &&& 0x01 ≠ 0), decide (ms &&& 0x02 ≠ 0),
                                         decide (ms &&& 0x04 ≠ 0), decide (ms &&& 0x08 ≠ 0)⟩ }

/-- Field for control bit 0x0200 (lines 211–217): secondary linear
acceleration. -/
def setHighPrecisionAccel (buf : List Nat) (L : Nat) : Except String (ImuData → ImuData) := do
  let ax ← parse_int16_from_buffer buf L
  let ay ← parse_int16_from_buffer buf (L + 2)
  let az ← parse_int16_from_buffer buf (L + 4)
  pure fun d => { d with high_precision_linear_accel := some ⟨ax * SCALE_ACCEL, ay * SCALE_ACCEL, az * SCALE_ACCEL⟩ }

/-- Field for control bit 0x0400 (lines 220–224): 16-bit ADC reading. -/
def setAdc (buf : List Nat) (L : Nat) : Except String (ImuData → ImuData) := do
  let b1 ← getByte buf (L + 1)
  let b0 ← getByte buf L
  pure fun d => { d with adc := some ((b1 <<< 8) ||| b0) }

/-- Field for control bit 0x0800 (lines 227–234): GPIO byte split into two
nibbles. -/
def setGpio (buf : List Nat) (L : Nat) : Except String (ImuData → ImuData) := do
  let g ← getByte buf L
  pure fun d => { d with gpio := some ⟨(g >>> 4) &&& 0x0f, g &&& 0x0f⟩ }

/-- The twelve optional fields, in the order `parse_imu_data` consumes
them, each with its feature bit and byte size. -/
def fieldSteps : List FieldStep :=
  [⟨0x0001, 6, setLinearAccel⟩,
   ⟨0x0002, 6, setAccelWithGravity⟩,
   ⟨0x0004, 6, setGyro⟩,
   ⟨0x0008, 6, setMag⟩,
   ⟨0x0010, 8, setTempPressureHeight⟩,
   ⟨0x0020, 8, setQuat⟩,
   ⟨0x0040, 6, setAngle⟩,
   ⟨0x0080, 6, setOffset⟩,
   ⟨0x0100, 5, setSteps⟩,
   ⟨0x0200, 6, setHighPrecisionAccel⟩,
   ⟨0x0400, 2, setAdc⟩,
   ⟨0x0800, 1, setGpio⟩]

/-- One `if (ctl & bit) != 0: if L + size <= len(buf): ...` block of
`parse_imu_data`: when the field is selected and fits, read it and advance
the offset; when it is selected but does not fit, leave offset and data
unchanged (the source neither raises nor advances `L`). -/
def applyStep (buf : List Nat) (ctl : Nat) (fs : FieldStep) (st : Nat × ImuData) :
    Except String (Nat × ImuData) :=
  if ctl &&& fs.bit ≠ 0 then
    if st.1 + fs.size ≤ buf.length then do
      let f ← fs.set buf st.1
      pure (st.1 + fs.size, f st.2)
    else pure st
  else pure st

/-- Sequence of field blocks, threaded over the running offset and data. -/
def runSteps (buf : List Nat) (ctl : Nat) : List FieldStep → Nat × ImuData →
    Except String (Nat × ImuData)
  | [], st => pure st
  | fs :: rest, st => do
    let st1 ← applyStep buf ctl fs st
    runSteps buf ctl rest st1

/-- Body of the `try` block of `parse_imu_data` (lines 95–236): control
word and timestamp from the 7-byte header, then the twelve optional field
blocks starting at offset 7. -/
def parse_imu_data_body (buf : List Nat) : Except String ImuData := do
  let b1 ← getByte buf 1
  let b2 ← getByte buf 2
  let b3 ← getByte buf 3
  let b4 ← getByte buf 4
  let b5 ← getByte buf 5
  let b6 ← getByte buf 6
  let ctl : Nat := (b2 <<< 8) ||| b1
  let ts : Nat := (b6 <<< 24) ||| (b5 <<< 16) ||| (b4 <<< 8) ||| b3
  let st ← runSteps buf ctl fieldSteps (7, { timestamp := ts, control := ctl })
  pure st.2

/-- Model of `IMUProtocol.parse_imu_data` (lines 81–240): reject a buffer
shorter than 7 bytes or whose first byte is not `0x11`; otherwise run the
body, mapping any raised exception to `None` (the `except` clause). -/
def parse_imu_data (buf : List Nat) : Option ImuData :=
  if buf.length < 7 then none
  else if buf.getD 0 0 ≠ 0x11 then none
  else
    match parse_imu_data_body buf with
    | Except.ok d => some d
    | Except.error _ => none

/-! ## Association-list primitives

The source keeps its per-device bookkeeping in Python dicts that are
always read and written together under one mutex.  They are modelled as
association lists: `alookup` is `dict.get`, `aset` is item assignment
(replace the first binding or append a new one), `aerase` is `del`. -/

def alookup {K V : Type} [DecidableEq K] : List (K × V) → K → Option V
  | [], _ => none
  | p :: rest, k => if p.1 = k then some p.2 else alookup rest k

def aset {K V : Type} [DecidableEq K] : List (K × V) → K → V → List (K × V)
  | [], k, v => [(k, v)]
  | p :: rest, k, v => if p.1 = k then (k, v) :: rest else p :: aset rest k v

def aerase {K V : Type} [DecidableEq K] : List (K × V) → K → List (K × V)
  | [], _ => []
  | p :: rest, k => if p.1 = k then rest else p :: aerase rest k

/-! ## Writer (consumer) thread

Model of `IMUWriterThread` (`src/core/imu/imu_writer_thread.py`) and of
`VideoWriterThread` (`src/core/camera/video_writer_thread.py`).  The two
classes implement identical bookkeeping; the model is generic in the key
type `Dev` (`String` device address for the IMU writer, `Nat` camera id
for the video writer).  The parallel dicts `writers` / `writer_configs` /
`writer_states` / `writer_stats`, which the source always creates and
deletes together under `writers_lock`, are combined into one association
list of `WriterJob`s; the open file artifact is abstracted into the
`written` log of rows, and the `writer_stopped` signal into the
`finalized` log. -/

inductive WriterState where
  | IDLE
  | WRITING
  | STOPPING
  | ERROR
deriving DecidableEq

/-- Per-device throughput and loss counters (`writer_stats` entries). -/
structure WriterStats where
  data_count : Nat
  dropped_data : Nat
deriving DecidableEq

/-- One writer job: its state and its stats. -/
structure WriterJob where
  state : WriterState
  stats : WriterStats
deriving DecidableEq

/-- One queued unit (`IMUData` resp. `FrameData`): the device it belongs
to and an abstract payload tag. -/
structure DataUnit (Dev : Type) where
  device_address : Dev
  payload : Nat
deriving DecidableEq

/-- State of the writer thread. -/
structure WriterThread (Dev : Type) where
  jobs : List (Dev × WriterJob)
  data_queue : List (DataUnit Dev)
  queue_maxsize : Nat
  written : List (Dev × DataUnit Dev)
  finalized : List (Dev × WriterStats)
deriving DecidableEq

variable {Dev : Type} [DecidableEq Dev]

/-- Python `queue.Queue` is full exactly when its maxsize is positive and
reached (`maxsize=0` means unbounded). -/
def queue_full (w : WriterThread Dev) : Bool :=
  decide (0 < w.queue_maxsize ∧ w.queue_maxsize ≤ w.data_queue.length)

/-- Model of `start_writer` (IMU lines 68–128, video lines 71–134): fail
if a job already exists for the device; otherwise open the artifact
(`openOk` models the `try` around file creation — on an exception nothing
is registered) and register a fresh `WRITING` job with zeroed stats. -/
def start_writer (w : WriterThread Dev) (d : Dev) (openOk : Bool) :
    WriterThread Dev × Bool :=
  if (alookup w.jobs d).isSome then (w, false)
  else if openOk then
    ({ w with jobs := aset w.jobs d ⟨WriterState.WRITING, ⟨0, 0⟩⟩ }, true)
  else (w, false)

/-- Model of `stop_writer` (IMU lines 130–149, video lines 136–155): fail
if no job exists, otherwise mark the job `STOPPING`. -/
def stop_writer (w : WriterThread Dev) (d : Dev) : WriterThread Dev × Bool :=
  match alookup w.jobs d with
  | none => (w, false)
  | some j => ({ w with jobs := aset w.jobs d ({ j with state := WriterState.STOPPING }) }, true)

/-- Model of `add_data` (IMU lines 151–181) / `add_frame` (video lines
157–187): reject when no job exists or the job is not `WRITING`; then a
non-blocking enqueue; on `queue.Full` drop the unit and increment the
device's dropped counter (the source re-checks membership under the lock
before incrementing). -/
def add_data (w : WriterThread Dev) (u : DataUnit Dev) : WriterThread Dev × Bool :=
  match alookup w.jobs u.device_address with
  | none => (w, false)
  | some j =>
    if j.state ≠ WriterState.WRITING then (w, false)
    else if queue_full w then
      match alookup w.jobs u.device_address with
      | some j2 =>
        ({ w with jobs :=
                    aset w.jobs u.device_address
                      ({ j2 with stats := { j2.stats with dropped_data := j2.stats.dropped_data + 1 } }) },
         false)
      | none => (w, false)
    else ({ w with data_queue := w.data_queue ++ [u] }, true)

/-- Model of `_process_data` (IMU lines 258–323) / `_process_frame`
(video lines 264–309): ignore units with no job; skip the write when the
job is `STOPPING`; otherwise write the row (`writeOk` models the `try`
around the artifact write — a failure marks the job `ERROR`). -/
def process_data (w : WriterThread Dev) (u : DataUnit Dev) (writeOk : Bool) :
    WriterThread Dev :=
  match alookup w.jobs u.device_address with
  | none => w
  | some j =>
    if j.state = WriterState.STOPPING then w
    else if writeOk then
      { w with written := w.written ++ [(u.device_address, u)],
               jobs := aset w.jobs u.device_address
                 ({ j with stats := { j.stats with data_count := j.stats.data_count + 1 } }) }
    else { w with jobs := aset w.jobs u.device_address ({ j with state := WriterState.ERROR }) }

/-- Model of `_finalize_writer` (IMU lines 338–383, video lines 324–377):
close the artifact, emit the final statistics once, delete every
per-device record. -/
def finalize_writer (w : WriterThread Dev) (d : Dev) : WriterThread Dev :=
  match alookup w.jobs d with
  | none => w
  | some j => { w with jobs := aerase w.jobs d, finalized := w.finalized ++ [(d, j.stats)] }

/-- Model of `_check_stopping_writers` (IMU lines 325–336, video lines
311–322): finalize every job currently marked `STOPPING`. -/
def check_stopping_writers (w : WriterThread Dev) : WriterThread Dev :=
  let stopping := (w.jobs.filter (fun p => decide (p.2.state = WriterState.STOPPING))).map Prod.fst
  stopping.foldl finalize_writer w

/-- One iteration of the consumption loop in `run` (IMU lines 229–247,
video lines 235–253): dequeue one unit and process it; when the queue is
observed empty, check for stopping writers. -/
def run_step (w : WriterThread Dev) (writeOk : Bool) : WriterThread Dev :=
  match w.data_queue with
  | [] => check_stopping_writers w
  | u :: rest => process_data { w with data_queue := rest } u writeOk

/-- Model of `stop_thread` (IMU lines 394–402, video lines 388–396): mark
every open job `STOPPING`. -/
def stop_thread (w : WriterThread Dev) : WriterThread Dev :=
  { w with jobs := w.jobs.map (fun p => (p.1, { p.2 with state := WriterState.STOPPING })) }

/-- At most one writer job per device: the job keys are distinct. -/
def jobsNodup (w : WriterThread Dev) : Prop :=
  (w.jobs.map Prod.fst).Nodup

/-! ## IMU device manager (`src/core/imu/imu_manager.py`) -/

inductive IMUConnectionState where
  | DISCONNECTED
  | CONNECTING
  | CONNECTED
  | ERROR
deriving DecidableEq

/-- One tracked IMU device record (`IMUDevice` in
`src/core/imu/data_type.py`); the BLE client handle and timing fields are
outside the claims and omitted. -/
structure IMUDeviceR where
  name : String
  rssi : Option Int
  state : IMUConnectionState
  manual_disconnect : Bool
  custom_name : Option String
deriving DecidableEq

/-- State of `IMUManager` relevant to scan and connect. -/
structure IMUManagerS where
  devices : List (String × IMUDeviceR)
  max_devices : Nat
  device_custom_names : List (String × String)
  is_scanning : Bool
deriving DecidableEq

/-- Count of devices currently `CONNECTED` (lines 151–152). -/
def connectedCount (devs : List (String × IMUDeviceR)) : Nat :=
  (devs.filter (fun p => decide (p.2.state = IMUConnectionState.CONNECTED))).length

/-- Model of `IMUManager.connect_device` (lines 121–188): unknown address
fails; `CONNECTED` is idempotent success; `CONNECTING` fails; reaching
`max_devices` connected fails — all three before any mutation.  Past the
checks, the manual-disconnect flag is cleared, the state set `CONNECTING`,
and the connection task runs (`taskOk` models its BLE outcome): `CONNECTED`
on success, `ERROR` on failure. -/
def connect_device (m : IMUManagerS) (address : String) (taskOk : Bool) :
    IMUManagerS × Bool :=
  match alookup m.devices address with
  | none => (m, false)
  | some dev =>
    if dev.state = IMUConnectionState.CONNECTED then (m, true)
    else if dev.state = IMUConnectionState.CONNECTING then (m, false)
    else if m.max_devices ≤ connectedCount m.devices then (m, false)
    else
      let dev1 := { dev with manual_disconnect := false }
      if taskOk then
        ({ m with devices := aset m.devices address ({ dev1 with state := IMUConnectionState.CONNECTED }) }, true)
      else
        ({ m with devices := aset m.devices address ({ dev1 with state := IMUConnectionState.ERROR }) }, false)

/-- Decision taken by `disconnected_callback` (lines 217–224): a reconnect
task is scheduled only when the disconnect was not manual and no reconnect
task already exists for the address. -/
def shouldScheduleReconnect (manual_disconnect : Bool) (task_exists : Bool) : Bool :=
  !manual_disconnect && !task_exists

/-- Observable event of the reconnection loop. -/
inductive RcEvent where
  | sleepDelay (delay : ℚ)
  | attempt (idx : Nat)
deriving DecidableEq

/-- Loop body of `_reconnect_device_task` (lines 347–381): at the top of
each of the up-to-`k` remaining iterations, stop if the manual-disconnect
flag is set; otherwise sleep the fixed delay, attempt a connect, and stop
on success.  `manual i` and `connectOk i` are oracles giving the flag
value and the attempt outcome at global iteration `i`. -/
def reconnect_loop (manual : Nat → Bool) (connectOk : Nat → Bool) (delay : ℚ) :
    Nat → Nat → List RcEvent
  | 0, _ => []
  | k + 1, i =>
    if manual i then []
    else
      RcEvent.sleepDelay delay :: RcEvent.attempt i ::
        (if connectOk i then [] else reconnect_loop manual connectOk delay k (i + 1))

/-- Model of `_reconnect_device_task`: the loop run for the configured
`reconnect_attempts` with the configured `reconnect_delay`. -/
def reconnect_device_task (manual connectOk : Nat → Bool)
    (reconnect_attempts : Nat) (reconnect_delay : ℚ) : List RcEvent :=
  reconnect_loop manual connectOk reconnect_delay reconnect_attempts 0

/-- Number of connect attempts in a reconnection trace. -/
def attemptsCount (tr : List RcEvent) : Nat :=
  (tr.filter (fun e => match e with | RcEvent.attempt _ => true | _ => false)).length

/-- Python `needle in hay` substring test on character lists. -/
def containsSub : List Char → List Char → Bool
  | [], needle => needle.isEmpty
  | c :: rest, needle => needle.isPrefixOf (c :: rest) || containsSub rest needle

/-- One discovered advertisement from the BLE sweep. -/
structure Advert where
  address : String
  adv_name : Option String
  rssi : Option Int
deriving DecidableEq

/-- Python `str.lower()` on the character list of a string. -/
def lowerChars (s : String) : List Char :=
  s.data.map Char.toLower

/-- Keyword filter of `start_scan` (lines 82–85): with a non-empty filter
list, keep a device iff some keyword occurs case-insensitively in its
advertised name (`device.name or ""`); `None` or an empty list disables
filtering (Python truthiness). -/
def nameMatches (name_filter : Option (List String)) (adv_name : Option String) : Bool :=
  match name_filter with
  | none => true
  | some kws =>
    if kws.isEmpty then true
    else
      kws.any (fun k => containsSub (lowerChars (adv_name.getD "")) (lowerChars k))

/-- Per-advertisement step of `start_scan` (lines 88–110): a new address
is added as a fresh record (discovered name or "Unknown", configured
custom name, default `DISCONNECTED` state); an address already in the list
only has its RSSI refreshed. -/
def scanStep (custom_names : List (String × String))
    (devs : List (String × IMUDeviceR)) (a : Advert) : List (String × IMUDeviceR) :=
  match alookup devs a.address with
  | none =>
    aset devs a.address
      { name := a.adv_name.getD "Unknown", rssi := a.rssi,
        state := IMUConnectionState.DISCONNECTED, manual_disconnect := false,
        custom_name := alookup custom_names a.address }
  | some d => aset devs a.address ({ d with rssi := a.rssi })

/-- Model of `IMUManager.start_scan` (lines 59–119): a scan request while
already scanning is ignored; otherwise the device list is cleared (line
75) and rebuilt from the advertisements that pass the keyword filter. -/
def start_scan (m : IMUManagerS) (found : List Advert)
    (name_filter : Option (List String)) : IMUManagerS :=
  if m.is_scanning then m
  else
    let filtered := found.filter (fun a => nameMatches name_filter a.adv_name)
    { m with devices := filtered.foldl (scanStep m.device_custom_names) [],
             is_scanning := false }

/-! ## Camera manager connect (`src/core/camera/camera_manager.py`) -/

inductive CameraState where
  | DISCONNECTED
  | CONNECTING
  | CONNECTED
  | RECORDING
  | ERROR
deriving DecidableEq

/-- One tracked camera record (`CameraDevice` in
`src/core/camera/data_type.py`); the capture handle and timestamp ring are
outside the claims and omitted. -/
structure CameraDeviceR where
  name : String
  width : Nat
  height : Nat
  fps : ℚ
  state : CameraState
deriving DecidableEq

/-- State of `CameraManager` relevant to connect. -/
structure CameraManagerS where
  cameras : List (Nat × CameraDeviceR)
  max_cameras : Nat
  device_names : List (Nat × String)
  default_width : Nat
  default_height : Nat
  default_fps : ℚ
deriving DecidableEq

/-- Model of `_get_camera_name` (lines 132–142), with the Chinese
fallback label abstracted to "Camera". -/
def get_camera_name (m : CameraManagerS) (camera_id : Nat) : String :=
  (alookup m.device_names camera_id).getD "Camera"

/-- Count of cameras `CONNECTED` or `RECORDING` (lines 186–187). -/
def connectedCameraCount (cams : List (Nat × CameraDeviceR)) : Nat :=
  (cams.filter (fun p =>
    decide (p.2.state = CameraState.CONNECTED ∨ p.2.state = CameraState.RECORDING))).length

/-- Negotiated parameters returned by a successful `cv2.VideoCapture`
open: actual width, height and fps. -/
structure OpenResult where
  actual_width : Nat
  actual_height : Nat
  actual_fps : ℚ
deriving DecidableEq

/-- Model of `CameraManager.connect_camera` (lines 144–252): an unknown id
first gets a fresh default record (lines 162–171); `CONNECTED` is
idempotent success; `CONNECTING` fails; reaching `max_cameras` connected
fails.  Past the checks the requested or default parameters are applied,
and the open (`openResult`, `none` for any raised failure) yields
`CONNECTED` with the read-back values, or `ERROR`. -/
def connect_camera (m : CameraManagerS) (camera_id : Nat)
    (width height : Option Nat) (fps : Option ℚ)
    (openResult : Option OpenResult) : CameraManagerS × Bool :=
  let cams0 :=
    if (alookup m.cameras camera_id).isSome then m.cameras
    else aset m.cameras camera_id
      { name := get_camera_name m camera_id, width := m.default_width,
        height := m.default_height, fps := m.default_fps,
        state := CameraState.DISCONNECTED }
  match alookup cams0 camera_id with
  | none => (m, false)
  | some cam =>
    if cam.state = CameraState.CONNECTED then ({ m with cameras := cams0 }, true)
    else if cam.state = CameraState.CONNECTING then ({ m with cameras := cams0 }, false)
    else if m.max_cameras ≤ connectedCameraCount cams0 then ({ m with cameras := cams0 }, false)
    else
      let cam1 := { cam with width := width.getD m.default_width,
                             height := height.getD m.default_height,
                             fps := fps.getD m.default_fps }
      match openResult with
      | some r =>
        ({ m with cameras :=
                    aset cams0 camera_id
                      ({ cam1 with width := r.actual_width, height := r.actual_height,
                                   fps := r.actual_fps, state := CameraState.CONNECTED }) }, true)
      | none =>
        ({ m with cameras :=
                    aset cams0 camera_id ({ cam1 with state := CameraState.ERROR }) }, false)

/-! ## Process supervisor (`src/core/multiprocessing/process_manager.py`) -/

inductive ProcessStatus where
  | STOPPED
  | STARTING
  | RUNNING
  | STOPPING
  | ERROR
deriving DecidableEq

/-- One tracked process record (`ProcessInfo`): its lifecycle status,
whether an OS handle is attached (spawned with `stdin=PIPE`, so the handle
carries a command pipe), and whether a write to that pipe would succeed
(`writeOk` models the `try` around the stdin write). -/
structure ProcInfo where
  status : ProcessStatus
  hasProcess : Bool
  writeOk : Bool
deriving DecidableEq

/-- Model of `send_command` (lines 255–283): unknown id fails; a process
not `RUNNING` or without a handle fails; otherwise the JSON line is
written, succeeding iff the write raises nothing. -/
def send_command (procs : List (String × ProcInfo)) (process_id : String) : Bool :=
  match alookup procs process_id with
  | none => false
  | some pi => if pi.status ≠ ProcessStatus.RUNNING ∨ !pi.hasProcess then false else pi.writeOk

/-- Model of `send_command_to_all` (lines 285–308): count the `RUNNING`
processes and those of them that accepted the write; fail when none are
running, succeed iff at least one accepted. -/
def send_command_to_all (procs : List (String × ProcInfo)) : Bool :=
  let total_running := (procs.filter (fun p => decide (p.2.status = ProcessStatus.RUNNING))).length
  let success_count := (procs.filter (fun p =>
    decide (p.2.status = ProcessStatus.RUNNING) && send_command procs p.1)).length
  if total_running = 0 then false else decide (0 < success_count)

/-! ## Concrete scenarios used by counterexamples -/

/-- Number of jobs registered for a key: occurrences of the key in the
association list. -/
def countKey {K V : Type} [DecidableEq K] (l : List (K × V)) (k : K) : Nat :=
  (l.map Prod.fst).count k

/-- Fresh writer thread with the default queue size 1000. -/
def c1_writer0 : WriterThread String :=
  { jobs := [], data_queue := [], queue_maxsize := 1000, written := [], finalized := [] }

/-- One IMU unit for device "AA". -/
def c1_unit : DataUnit String := ⟨"AA", 5⟩

/-- Writer after `start_writer` for device "AA" succeeded. -/
def c1_after_start : WriterThread String := (start_writer c1_writer0 "AA" true).1

/-- Writer after `add_data` accepted `c1_unit` into the queue. -/
def c1_after_add : WriterThread String := (add_data c1_after_start c1_unit).1

/-- Writer after `stop_writer` marked the job `STOPPING`. -/
def c1_after_stop : WriterThread String := (stop_writer c1_after_add "AA").1

/-- Writer after the consumer dequeued the previously accepted unit. -/
def c1_after_drain : WriterThread String := run_step c1_after_stop true

/-- Writer after the consumer observed the empty queue and finalized. -/
def c1_final : WriterThread String := run_step c1_after_drain true

/-- Manager that already knows device "D1", currently CONNECTED with RSSI
-70, before a scan. -/
def c9_manager : IMUManagerS :=
  { devices := [("D1", { name := "IMU-A", rssi := some (-70),
                         state := IMUConnectionState.CONNECTED,
                         manual_disconnect := false, custom_name := none })],
    max_devices := 3, device_custom_names := [], is_scanning := false }

/-- Advertisement for the already-known address "D1" with a new RSSI. -/
def c9_advert : Advert := ⟨"D1", some "IMU-A", some (-40)⟩

/-! ## Helper lemmas: decoder totality -/

theorem getByte_ok {buf : List Nat} {i : Nat} (h : i < buf.length) :
    ∃ b, getByte buf i = Except.ok b := by
  unfold getByte
  cases hg : buf.get? i with
  | none => exact absurd (List.get?_eq_none.mp hg) (by omega)
  | some b => exact ⟨b, rfl⟩

theorem parse_int16_ok (buf : List Nat) (off : Nat) :
    ∃ v, parse_int16_from_buffer buf off = Except.ok v := by
  unfold parse_int16_from_buffer
  split
  · exact ⟨0, rfl⟩
  · rename_i h
    obtain ⟨hi, hhi⟩ := getByte_ok (show off + 1 < buf.length by omega)
    obtain ⟨lo, hlo⟩ := getByte_ok (show off < buf.length by omega)
    rw [hhi, hlo]
    exact ⟨_, rfl⟩

theorem parse_int24_ok (buf : List Nat) (off : Nat) :
    ∃ v, parse_int24_from_buffer buf off = Except.ok v := by
  unfold parse_int24_from_buffer
  split
  · exact ⟨0, rfl⟩
  · rename_i h
    obtain ⟨b2, h2⟩ := getByte_ok (show off + 2 < buf.length by omega)
    obtain ⟨b1, h1⟩ := getByte_ok (show off + 1 < buf.length by omega)
    obtain ⟨b0, h0⟩ := getByte_ok (show off < buf.length by omega)
    rw [h2, h1, h0]
    exact ⟨_, rfl⟩

theorem setLinearAccel_ok (buf : List Nat) (L : Nat) :
    ∃ f, setLinearAccel buf L = Except.ok f := by
  unfold setLinearAccel
  obtain ⟨a, ha⟩ := parse_int16_ok buf L
  obtain ⟨b, hb⟩ := parse_int16_ok buf (L + 2)
  obtain ⟨c, hc⟩ := parse_int16_ok buf (L + 4)
  rw [ha, hb, hc]
  exact ⟨_, rfl⟩

theorem setAccelWithGravity_ok (buf : List Nat) (L : Nat) :
    ∃ f, setAccelWithGravity buf L = Except.ok f := by
  unfold setAccelWithGravity
  obtain ⟨a, ha⟩ := parse_int16_ok buf L
  obtain ⟨b, hb⟩ := parse_int16_ok buf (L + 2)
  obtain ⟨c, hc⟩ := parse_int16_ok buf (L + 4)
  rw [ha, hb, hc]
  exact ⟨_, rfl⟩

theorem setGyro_ok (buf : List Nat) (L : Nat) :
    ∃ f, setGyro buf L = Except.ok f := by
  unfold setGyro
  obtain ⟨a, ha⟩ := parse_int16_ok buf L
  obtain ⟨b, hb⟩ := parse_int16_ok buf (L + 2)
  obtain ⟨c, hc⟩ := parse_int16_ok buf (L + 4)
  rw [ha, hb, hc]
  exact ⟨_, rfl⟩

theorem setMag_ok (buf : List Nat) (L : Nat) :
    ∃ f, setMag buf L = Except.ok f := by
  unfold setMag
  obtain ⟨a, ha⟩ := parse_int16_ok buf L
  obtain ⟨b, hb⟩ := parse_int16_ok buf (L + 2)
  obtain ⟨c, hc⟩ := parse_int16_ok buf (L + 4)
  rw [ha, hb, hc]
  exact ⟨_, rfl⟩

theorem setTempPressureHeight_ok (buf : List Nat) (L : Nat) :
    ∃ f, setTempPressureHeight buf L = Except.ok f := by
  unfold setTempPressureHeight
  obtain ⟨a, ha⟩ := parse_int16_ok buf L
  obtain ⟨b, hb⟩ := parse_int24_ok buf (L + 2)
  obtain ⟨c, hc⟩ := parse_int24_ok buf (L + 5)
  rw [ha, hb, hc]
  exact ⟨_, rfl⟩

theorem setQuat_ok (buf : List Nat) (L : Nat) :
    ∃ f, setQuat buf L = Except.ok f := by
  unfold setQuat
  obtain ⟨a, ha⟩ := parse_int16_ok buf L
  obtain ⟨b, hb⟩ := parse_int16_ok buf (L + 2)
  obtain ⟨c, hc⟩ := parse_int16_ok buf (L + 4)
  obtain ⟨d, hd⟩ := parse_int16_ok buf (L + 6)
  rw [ha, hb, hc, hd]
  exact ⟨_, rfl⟩

theorem setAngle_ok (buf : List Nat) (L : Nat) :
    ∃ f, setAngle buf L = Except.ok f := by
  unfold setAngle
  obtain ⟨a, ha⟩ := parse_int16_ok buf L
  obtain ⟨b, hb⟩ := parse_int16_ok buf (L + 2)
  obtain ⟨c, hc⟩ := parse_int16_ok buf (L + 4)
  rw [ha, hb, hc]
  exact ⟨_, rfl⟩

theorem setOffset_ok (buf : List Nat) (L : Nat) :
    ∃ f, setOffset buf L = Except.ok f := by
  unfold setOffset
  obtain ⟨a, ha⟩ := parse_int16_ok buf L
  obtain ⟨b, hb⟩ := parse_int16_ok buf (L + 2)
  obtain ⟨c, hc⟩ := parse_int16_ok buf (L + 4)
  rw [ha, hb, hc]
  exact ⟨_, rfl⟩

theorem setSteps_ok (buf : List Nat) (L : Nat) (h : L + 5 ≤ buf.length) :
    ∃ f, setSteps buf L = Except.ok f := by
  unfold setSteps
  obtain ⟨a3, h3⟩ := getByte_ok (show L + 3 < buf.length by omega)
  obtain ⟨a2, h2⟩ := getByte_ok (show L + 2 < buf.length by omega)
  obtain ⟨a1, h1⟩ := getByte_ok (show L + 1 < buf.length by omega)
  obtain ⟨a0, h0⟩ := getByte_ok (show L < buf.length by omega)
  obtain ⟨m, hm⟩ := getByte_ok (show L + 4 < buf.length by omega)
  rw [h3, h2, h1, h0, hm]
  exact ⟨_, rfl⟩

theorem setHighPrecisionAccel_ok (buf : List Nat) (L : Nat) :
    ∃ f, setHighPrecisionAccel buf L = Except.ok f := by
  unfold setHighPrecisionAccel
  obtain ⟨a, ha⟩ := parse_int16_ok buf L
  obtain ⟨b, hb⟩ := parse_int16_ok buf (L + 2)
  obtain ⟨c, hc⟩ := parse_int16_ok buf (L + 4)
  rw [ha, hb, hc]
  exact ⟨_, rfl⟩

theorem setAdc_ok (buf : List Nat) (L : Nat) (h : L + 2 ≤ buf.length) :
    ∃ f, setAdc buf L = Except.ok f := by
  unfold setAdc
  obtain ⟨a1, h1⟩ := getByte_ok (show L + 1 < buf.length by omega)
  obtain ⟨a0, h0⟩ := getByte_ok (show L < buf.length by omega)
  rw [h1, h0]
  exact ⟨_, rfl⟩

theorem setGpio_ok (buf : List Nat) (L : Nat) (h : L + 1 ≤ buf.length) :
    ∃ f, setGpio buf L = Except.ok f := by
  unfold setGpio
  obtain ⟨g, hg⟩ := getByte_ok (show L < buf.length by omega)
  rw [hg]
  exact ⟨_, rfl⟩

theorem applyStep_ok_of {buf : List Nat} {ctl : Nat} {fs : FieldStep} {st : Nat × ImuData}
    (hset : st.1 + fs.size ≤ buf.length → ∃ f, fs.set buf st.1 = Except.ok f) :
    ∃ st', applyStep buf ctl fs st = Except.ok st' := by
  unfold applyStep
  split
  · split
    · rename_i hsz
      obtain ⟨f, hf⟩ := hset hsz
      rw [hf]
      exact ⟨_, rfl⟩
    · exact ⟨st, rfl⟩
  · exact ⟨st, rfl⟩

theorem applyStep_ok {fs : FieldStep} (hfs : fs ∈ fieldSteps) (buf : List Nat) (ctl : Nat)
    (st : Nat × ImuData) : ∃ st', applyStep buf ctl fs st = Except.ok st' := by
  simp only [fieldSteps, List.mem_cons, List.not_mem_nil, or_false] at hfs
  rcases hfs with rfl | rfl | rfl | rfl | rfl | rfl | rfl | rfl | rfl | rfl | rfl | rfl
  · exact applyStep_ok_of (fun _ => setLinearAccel_ok buf st.1)
  · exact applyStep_ok_of (fun _ => setAccelWithGravity_ok buf st.1)
  · exact applyStep_ok_of (fun _ => setGyro_ok buf st.1)
  · exact applyStep_ok_of (fun _ => setMag_ok buf st.1)
  · exact applyStep_ok_of (fun _ => setTempPressureHeight_ok buf st.1)
  · exact applyStep_ok_of (fun _ => setQuat_ok buf st.1)
  · exact applyStep_ok_of (fun _ => setAngle_ok buf st.1)
  · exact applyStep_ok_of (fun _ => setOffset_ok buf st.1)
  · exact applyStep_ok_of (fun h => setSteps_ok buf st.1 h)
  · exact applyStep_ok_of (fun _ => setHighPrecisionAccel_ok buf st.1)
  · exact applyStep_ok_of (fun h => setAdc_ok buf st.1 h)
  · exact applyStep_ok_of (fun h => setGpio_ok buf st.1 h)

theorem runSteps_ok (buf : List Nat) (ctl : Nat) :
    ∀ l : List FieldStep, (∀ fs ∈ l, fs ∈ fieldSteps) →
      ∀ st : Nat × ImuData, ∃ st', runSteps buf ctl l st = Except.ok st' := by
  intro l
  induction l with
  | nil => exact fun _ st => ⟨st, rfl⟩
  | cons fs rest ih =>
    intro hmem st
    obtain ⟨st1, h1⟩ := applyStep_ok (hmem fs (List.mem_cons_self fs rest)) buf ctl st
    obtain ⟨st2, h2⟩ := ih (fun g hg => hmem g (List.mem_cons_of_mem fs hg)) st1
    refine ⟨st2, ?_⟩
    unfold runSteps
    rw [h1]
    exact h2

theorem parse_imu_data_body_ok {buf : List Nat} (h : 7 ≤ buf.length) :
    ∃ d, parse_imu_data_body buf = Except.ok d := by
  unfold parse_imu_data_body
  obtain ⟨b1, h1⟩ := getByte_ok (show 1 < buf.length by omega)
  obtain ⟨b2, h2⟩ := getByte_ok (show 2 < buf.length by omega)
  obtain ⟨b3, h3⟩ := getByte_ok (show 3 < buf.length by omega)
  obtain ⟨b4, h4⟩ := getByte_ok (show 4 < buf.length by omega)
  obtain ⟨b5, h5⟩ := getByte_ok (show 5 < buf.length by omega)
  obtain ⟨b6, h6⟩ := getByte_ok (show 6 < buf.length by omega)
  rw [h1, h2, h3, h4, h5, h6]
  obtain ⟨st, hst⟩ := runSteps_ok buf ((b2 <<< 8) ||| b1) fieldSteps (fun _ hg => hg)
    (7, { timestamp := (b6 <<< 24) ||| (b5 <<< 16) ||| (b4 <<< 8) ||| b3, control := (b2 <<< 8) ||| b1 })
  show ∃ d, (runSteps buf ((b2 <<< 8) ||| b1) fieldSteps
      (7, { timestamp := (b6 <<< 24) ||| (b5 <<< 16) ||| (b4 <<< 8) ||| b3,
            control := (b2 <<< 8) ||| b1 })).bind (fun st => Except.ok st.2) = Except.ok d
  rw [hst]
  exact ⟨st.2, rfl⟩

/-! ## Helper lemmas: byte composition -/

theorem lor_shift_byte (y x k : Nat) (hx : x < 2 ^ k) : (y <<< k) ||| x = 2 ^ k * y + x := by
  rw [Nat.shiftLeft_eq, Nat.mul_comm]
  exact (Nat.mul_add_lt_is_or hx y).symm

theorem timestamp_bytes_eq (b3 b4 b5 b6 : Nat) (h3 : b3 < 256) (h4 : b4 < 256)
    (h5 : b5 < 256) :
    (b6 <<< 24) ||| (b5 <<< 16) ||| (b4 <<< 8) ||| b3 =
      b3 + 256 * b4 + 65536 * b5 + 16777216 * b6 := by
  rw [Nat.lor_assoc, Nat.lor_assoc]
  rw [lor_shift_byte b4 b3 8 (by omega)]
  rw [lor_shift_byte b5 (2 ^ 8 * b4 + b3) 16 (by omega)]
  rw [lor_shift_byte b6 (2 ^ 16 * b5 + (2 ^ 8 * b4 + b3)) 24 (by omega)]
  omega

/-! ## Helper lemmas: association lists -/

theorem alookup_aset_self {K V : Type} [DecidableEq K] (l : List (K × V)) (k : K) (v : V) :
    alookup (aset l k v) k = some v := by
  induction l with
  | nil => simp [aset, alookup]
  | cons p rest ih =>
    by_cases h : p.1 = k
    · simp [aset, h, alookup]
    · simp [aset, h, alookup, ih]

theorem alookup_aset_ne {K V : Type} [DecidableEq K] (l : List (K × V)) {k k' : K} (v : V)
    (h : k ≠ k') : alookup (aset l k v) k' = alookup l k' := by
  induction l with
  | nil => simp [aset, alookup, h]
  | cons p rest ih =>
    by_cases hp : p.1 = k
    · have hpk : p.1 ≠ k' := by rw [hp]; exact h
      simp [aset, hp, alookup, h, hpk]
    · by_cases hp' : p.1 = k'
      · simp [aset, hp, alookup, hp', Ne.symm h]
      · simp [aset, hp, alookup, hp', ih]

theorem keys_aset_mem {K V : Type} [DecidableEq K] (l : List (K × V)) (k : K) (v : V)
    (h : k ∈ l.map Prod.fst) : (aset l k v).map Prod.fst = l.map Prod.fst := by
  induction l with
  | nil => simp at h
  | cons p rest ih =>
    by_cases hp : p.1 = k
    · simp [aset, hp]
    · have h' : k ∈ rest.map Prod.fst := by
        simp only [List.map_cons, List.mem_cons] at h
        exact h.resolve_left (fun hk => hp hk.symm)
      simp [aset, hp, ih h']

theorem keys_aset_not_mem {K V : Type} [DecidableEq K] (l : List (K × V)) (k : K) (v : V)
    (h : k ∉ l.map Prod.fst) : (aset l k v).map Prod.fst = l.map Prod.fst ++ [k] := by
  induction l with
  | nil => simp [aset]
  | cons p rest ih =>
    have hp : p.1 ≠ k := by
      intro hk
      exact h (by simp [hk])
    have h' : k ∉ rest.map Prod.fst := fun hk => h (by simp [hk])
    simp [aset, hp, ih h']

theorem nodup_keys_aset {K V : Type} [DecidableEq K] (l : List (K × V)) (k : K) (v : V)
    (h : (l.map Prod.fst).Nodup) : ((aset l k v).map Prod.fst).Nodup := by
  by_cases hm : k ∈ l.map Prod.fst
  · rw [keys_aset_mem l k v hm]
    exact h
  · rw [keys_aset_not_mem l k v hm]
    simp [List.nodup_append, h, hm]

theorem aerase_sublist {K V : Type} [DecidableEq K] (l : List (K × V)) (k : K) :
    (aerase l k).Sublist l := by
  induction l with
  | nil => simp [aerase]
  | cons p rest ih =>
    by_cases hp : p.1 = k
    · simp only [aerase, if_pos hp]
      exact List.sublist_cons_self p rest
    · simp only [aerase, if_neg hp]
      exact ih.cons₂ p

theorem nodup_keys_aerase {K V : Type} [DecidableEq K] (l : List (K × V)) (k : K)
    (h : (l.map Prod.fst).Nodup) : ((aerase l k).map Prod.fst).Nodup :=
  ((aerase_sublist l k).map Prod.fst).nodup h

theorem alookup_isSome_iff {K V : Type} [DecidableEq K] (l : List (K × V)) (k : K) :
    (alookup l k).isSome ↔ k ∈ l.map Prod.fst := by
  induction l with
  | nil => simp [alookup]
  | cons p rest ih =>
    by_cases hp : p.1 = k
    · simp [alookup, hp]
    · have hk : ¬ k = p.1 := fun hk => hp hk.symm
      simp [alookup, hp, List.mem_cons, hk, ih]

theorem countKey_eq_one_of_aset_absent {K V : Type} [DecidableEq K] (l : List (K × V))
    (k : K) (v : V) (h : k ∉ l.map Prod.fst) : countKey (aset l k v) k = 1 := by
  unfold countKey
  rw [keys_aset_not_mem l k v h]
  simp [List.count_append, List.count_eq_zero.mpr h]

/-! ## Claim C6 -/

/-- C6: `parse_imu_data` returns `none` for every buffer shorter than 7
bytes and for every buffer whose first byte is not `0x11`; and a 7-byte
buffer with tag `0x11` and feature bitmask `0x0000` decodes to a record
holding only the little-endian 32-bit timestamp from bytes 3–6 and the
little-endian 16-bit control word from bytes 1–2, with every optional
field absent. -/
theorem C6_header_decode :
    (∀ buf : List Nat, buf.length < 7 → parse_imu_data buf = none) ∧
    (∀ buf : List Nat, buf.getD 0 0 ≠ 0x11 → parse_imu_data buf = none) ∧
    (∀ b3 b4 b5 b6 : Nat, b3 < 256 → b4 < 256 → b5 < 256 → b6 < 256 →
      parse_imu_data [0x11, 0, 0, b3, b4, b5, b6] =
        some { timestamp := b3 + 256 * b4 + 65536 * b5 + 16777216 * b6, control := 0 }) := by
  refine ⟨?_, ?_, ?_⟩
  · intro buf h
    unfold parse_imu_data
    rw [if_pos h]
  · intro buf h
    rw [List.getD_eq_getElem?_getD] at h
    simp [parse_imu_data, List.getD_eq_getElem?_getD, h]
  · intro b3 b4 b5 b6 h3 h4 h5 _h6
    have hbody : parse_imu_data_body [17, 0, 0, b3, b4, b5, b6] =
        Except.ok { timestamp := (b6 <<< 24) ||| (b5 <<< 16) ||| (b4 <<< 8) ||| b3,
                    control := 0 } := by
      unfold parse_imu_data_body
      simp [getByte, runSteps, fieldSteps, applyStep]
      rfl
    unfold parse_imu_data
    rw [if_neg (by simp), if_neg (by simp), hbody]
    rw [timestamp_bytes_eq b3 b4 b5 b6 h3 h4 h5]

/-- Closed instance of `C6_header_decode` at concrete inputs. -/
theorem C6_header_decode_witness :
    parse_imu_data [] = none ∧
    parse_imu_data [0x12, 0, 0, 0, 0, 0, 0] = none ∧
    parse_imu_data [0x11, 0, 0, 1, 2, 3, 4] =
      some { timestamp := 1 + 256 * 2 + 65536 * 3 + 16777216 * 4, control := 0 } :=
  ⟨C6_header_decode.1 [] (by decide),
   C6_header_decode.2.1 [0x12, 0, 0, 0, 0, 0, 0] (by decide),
   C6_header_decode.2.2 1 2 3 4 (by decide) (by decide) (by decide) (by decide)⟩

/-! ## Claim C10 -/

/-- C10: the decoder is total: `parse_imu_data` always returns `none` or a
record; the body of its `try` block never raises once the 7-byte header is
present; and the 16-bit and 24-bit field readers return 0 rather than
failing whenever the requested offset lies at or past the end of the
buffer. -/
theorem C10_decoder_total :
    (∀ buf : List Nat, parse_imu_data buf = none ∨ ∃ d, parse_imu_data buf = some d) ∧
    (∀ buf : List Nat, 7 ≤ buf.length → ∃ d, parse_imu_data_body buf = Except.ok d) ∧
    (∀ (buf : List Nat) (off : Nat), buf.length ≤ off →
      parse_int16_from_buffer buf off = Except.ok 0 ∧
      parse_int24_from_buffer buf off = Except.ok 0) := by
  refine ⟨?_, ?_, ?_⟩
  · intro buf
    cases h : parse_imu_data buf with
    | none => exact Or.inl rfl
    | some d => exact Or.inr ⟨d, rfl⟩
  · intro buf h
    exact parse_imu_data_body_ok h
  · intro buf off h
    constructor
    · unfold parse_int16_from_buffer
      rw [if_pos (by omega)]
    · unfold parse_int24_from_buffer
      rw [if_pos (by omega)]

/-- Closed instance of `C10_decoder_total` at concrete inputs. -/
theorem C10_decoder_total_witness :
    (parse_imu_data [255] = none ∨ ∃ d, parse_imu_data [255] = some d) ∧
    (∃ d, parse_imu_data_body [17, 1, 0, 0, 0, 0, 0] = Except.ok d) ∧
    (parse_int16_from_buffer [1, 2] 7 = Except.ok 0 ∧
     parse_int24_from_buffer [1, 2] 7 = Except.ok 0) :=
  ⟨C10_decoder_total.1 [255],
   C10_decoder_total.2.1 [17, 1, 0, 0, 0, 0, 0] (by decide),
   C10_decoder_total.2.2 [1, 2] 7 (by decide)⟩

/-! ## Claim C2 -/

/-- C2 counterexample: the claim that a truncated field makes the decoder
skip that field and all subsequent bitmask-selected fields is false.  In
the 8-byte packet below the bitmask `0x0801` selects linear acceleration
(bit 0, 6 bytes, truncated: only one byte follows the header) and GPIO
(bit 11, 1 byte): linear acceleration is skipped, yet the later GPIO field
is still decoded from the byte `0x5A`. -/
theorem C2_counterexample :
    (parse_imu_data [0x11, 0x01, 0x08, 0, 0, 0, 0, 0x5A]).map
        (fun d => (d.linear_accel.isSome, d.gpio)) =
      some (false, some ⟨5, 10⟩) := by
  decide

/-- C2 (amended): when a bitmask-selected field would read past the end of
the buffer, that field alone is silently skipped — no error is raised and
the running offset is not advanced — and decoding continues with the
remaining fields at the same offset, so a subsequent smaller field may
still be decoded. -/
theorem C2_truncated_field_skipped (buf : List Nat) (ctl : Nat) (st : Nat × ImuData)
    (fs : FieldStep) (rest : List FieldStep) (hsel : ctl &&& fs.bit ≠ 0)
    (hfit : buf.length < st.1 + fs.size) :
    applyStep buf ctl fs st = Except.ok st ∧
    runSteps buf ctl (fs :: rest) st = runSteps buf ctl rest st := by
  have h1 : applyStep buf ctl fs st = Except.ok st := by
    unfold applyStep
    rw [if_pos hsel, if_neg (by omega)]
    rfl
  refine ⟨h1, ?_⟩
  show (do
    let st1 ← applyStep buf ctl fs st
    runSteps buf ctl rest st1) = runSteps buf ctl rest st
  rw [h1]
  rfl

/-- Closed instance of `C2_truncated_field_skipped`: the truncated
linear-acceleration block of the `C2_counterexample` packet. -/
theorem C2_truncated_field_skipped_witness :
    applyStep [17, 1, 8, 0, 0, 0, 0, 90] 2049 ⟨0x0001, 6, setLinearAccel⟩
        (7, { timestamp := 0, control := 2049 }) =
      Except.ok (7, { timestamp := 0, control := 2049 }) :=
  (C2_truncated_field_skipped [17, 1, 8, 0, 0, 0, 0, 90] 2049
    (7, { timestamp := 0, control := 2049 }) ⟨0x0001, 6, setLinearAccel⟩ []
    (by decide) (by decide)).1

/-! ## Helper lemmas: writer thread -/

theorem process_data_finalized {Dev : Type} [DecidableEq Dev] (w : WriterThread Dev)
    (u : DataUnit Dev) (writeOk : Bool) :
    (process_data w u writeOk).finalized = w.finalized := by
  unfold process_data
  cases alookup w.jobs u.device_address with
  | none => rfl
  | some j =>
    dsimp only
    split
    · rfl
    · split
      · rfl
      · rfl

theorem process_data_stopping {Dev : Type} [DecidableEq Dev] {w : WriterThread Dev}
    {u : DataUnit Dev} {j : WriterJob} (writeOk : Bool)
    (hj : alookup w.jobs u.device_address = some j)
    (hs : j.state = WriterState.STOPPING) :
    process_data w u writeOk = w := by
  unfold process_data
  rw [hj]
  dsimp only
  rw [if_pos hs]

theorem start_writer_exists_fail {Dev : Type} [DecidableEq Dev] {w : WriterThread Dev}
    {d : Dev} (openOk : Bool) (h : (alookup w.jobs d).isSome) :
    start_writer w d openOk = (w, false) := by
  unfold start_writer
  rw [if_pos h]

theorem jobsNodup_finalize {Dev : Type} [DecidableEq Dev] (w : WriterThread Dev) (d : Dev)
    (h : jobsNodup w) : jobsNodup (finalize_writer w d) := by
  unfold finalize_writer
  cases alookup w.jobs d with
  | none => exact h
  | some j => exact nodup_keys_aerase w.jobs d h

theorem jobsNodup_foldl_finalize {Dev : Type} [DecidableEq Dev] :
    ∀ (ds : List Dev) (w : WriterThread Dev), jobsNodup w →
      jobsNodup (ds.foldl finalize_writer w)
  | [], _, h => h
  | d :: ds, w, h => jobsNodup_foldl_finalize ds (finalize_writer w d) (jobsNodup_finalize w d h)

theorem jobsNodup_check_stopping {Dev : Type} [DecidableEq Dev] (w : WriterThread Dev)
    (h : jobsNodup w) : jobsNodup (check_stopping_writers w) :=
  jobsNodup_foldl_finalize _ w h

theorem jobsNodup_process_data {Dev : Type} [DecidableEq Dev] (w : WriterThread Dev)
    (u : DataUnit Dev) (writeOk : Bool) (h : jobsNodup w) :
    jobsNodup (process_data w u writeOk) := by
  unfold process_data
  cases alookup w.jobs u.device_address with
  | none => exact h
  | some j =>
    dsimp only
    split
    · exact h
    · split
      · exact nodup_keys_aset w.jobs u.device_address _ h
      · exact nodup_keys_aset w.jobs u.device_address _ h

theorem jobsNodup_add_data {Dev : Type} [DecidableEq Dev] (w : WriterThread Dev)
    (u : DataUnit Dev) (h : jobsNodup w) : jobsNodup (add_data w u).1 := by
  unfold add_data
  cases alookup w.jobs u.device_address with
  | none => exact h
  | some j =>
    dsimp only
    split
    · exact h
    · split
      · exact nodup_keys_aset w.jobs u.device_address _ h
      · exact h

/-! ## Claim C3 -/

/-- C3: for every unit offered to `add_data`: it is rejected when no job
exists for its device or the job is not `WRITING`; with a `WRITING` job
and a full bounded queue, the unit is dropped, the queue is unchanged and
the device's dropped counter goes up by exactly one; with a `WRITING` job
and room in the queue, the unit is appended and accepted.  `add_data` is a
total function of the state (the enqueue is the non-blocking
`put_nowait`), so the producer is never blocked. -/
theorem C3_add_rejects_or_drops {Dev : Type} [DecidableEq Dev] (w : WriterThread Dev)
    (u : DataUnit Dev) :
    (alookup w.jobs u.device_address = none → add_data w u = (w, false)) ∧
    (∀ j, alookup w.jobs u.device_address = some j → j.state ≠ WriterState.WRITING →
      add_data w u = (w, false)) ∧
    (∀ j, alookup w.jobs u.device_address = some j → j.state = WriterState.WRITING →
      queue_full w = true →
      add_data w u =
        ({ w with jobs :=
                    aset w.jobs u.device_address
                      ({ j with stats := { j.stats with
                           dropped_data := j.stats.dropped_data + 1 } }) }, false)) ∧
    (∀ j, alookup w.jobs u.device_address = some j → j.state = WriterState.WRITING →
      queue_full w = false →
      add_data w u = ({ w with data_queue := w.data_queue ++ [u] }, true)) := by
  refine ⟨?_, ?_, ?_, ?_⟩
  · intro h
    unfold add_data
    rw [h]
  · intro j hj hs
    unfold add_data
    rw [hj]
    dsimp only
    rw [if_pos hs]
  · intro j hj hs hf
    unfold add_data
    rw [hj]
    dsimp only
    rw [if_neg (by simp [hs]), if_pos (by rw [hf])]
  · intro j hj hs hf
    unfold add_data
    rw [hj]
    dsimp only
    rw [if_neg (by simp [hs]), if_neg (by rw [hf]; exact Bool.false_ne_true)]

/-- Closed instance of `C3_add_rejects_or_drops`: a writer with a full
2-slot queue for device "AA" in `WRITING` state drops the offered unit,
keeps the queue unchanged and counts exactly one more dropped unit. -/
theorem C3_add_rejects_or_drops_witness :
    add_data
        { jobs := [("AA", ⟨WriterState.WRITING, ⟨3, 7⟩⟩)],
          data_queue := [⟨"AA", 1⟩, ⟨"AA", 2⟩], queue_maxsize := 2,
          written := [], finalized := [] } ⟨"AA", 9⟩ =
      ({ jobs := [("AA", ⟨WriterState.WRITING, ⟨3, 8⟩⟩)],
         data_queue := [⟨"AA", 1⟩, ⟨"AA", 2⟩], queue_maxsize := 2,
         written := [], finalized := [] }, false) :=
  (C3_add_rejects_or_drops
      { jobs := [("AA", ⟨WriterState.WRITING, ⟨3, 7⟩⟩)],
        data_queue := [⟨"AA", 1⟩, ⟨"AA", 2⟩], queue_maxsize := 2,
        written := [], finalized := [] } ⟨"AA", 9⟩).2.2.1
    ⟨WriterState.WRITING, ⟨3, 7⟩⟩ (by decide) (by decide) (by decide)

/-! ## Claim C4 -/

/-- C4: at most one writer job exists per device.  `start_writer` fails
and leaves the thread unchanged when a job already exists; distinctness of
the job keys is preserved by every writer operation; and calling
`start_writer` twice for one device without an intervening `stop_writer`
succeeds the first time, fails the second time leaving the state of the
first call, and exactly one job exists for that device afterwards. -/
theorem C4_one_job_per_device {Dev : Type} [DecidableEq Dev] (w : WriterThread Dev)
    (d : Dev) (u : DataUnit Dev) (openOk writeOk : Bool) :
    ((alookup w.jobs d).isSome → start_writer w d openOk = (w, false)) ∧
    (jobsNodup w →
      jobsNodup (start_writer w d openOk).1 ∧
      jobsNodup (stop_writer w d).1 ∧
      jobsNodup (add_data w u).1 ∧
      jobsNodup (run_step w writeOk) ∧
      jobsNodup (stop_thread w)) ∧
    (jobsNodup w → alookup w.jobs d = none →
      (start_writer w d true).2 = true ∧
      (start_writer (start_writer w d true).1 d openOk).2 = false ∧
      (start_writer (start_writer w d true).1 d openOk).1 = (start_writer w d true).1 ∧
      countKey (start_writer (start_writer w d true).1 d openOk).1.jobs d = 1) := by
  refine ⟨?_, ?_, ?_⟩
  · intro h
    exact start_writer_exists_fail openOk h
  · intro h
    refine ⟨?_, ?_, jobsNodup_add_data w u h, ?_, ?_⟩
    · unfold start_writer
      split
      · exact h
      · split
        · exact nodup_keys_aset w.jobs d _ h
        · exact h
    · unfold stop_writer
      cases alookup w.jobs d with
      | none => exact h
      | some j => exact nodup_keys_aset w.jobs d _ h
    · unfold run_step
      cases hq : w.data_queue with
      | nil => exact jobsNodup_check_stopping w h
      | cons v rest => exact jobsNodup_process_data _ v writeOk h
    · unfold jobsNodup stop_thread
      simpa [List.map_map, Function.comp] using h
  · intro hnd hnone
    have hfirst : start_writer w d true =
        ({ w with jobs := aset w.jobs d ⟨WriterState.WRITING, ⟨0, 0⟩⟩ }, true) := by
      unfold start_writer
      rw [if_neg (by rw [hnone]; simp), if_pos rfl]
    have hmem : d ∉ w.jobs.map Prod.fst := by
      intro hm
      rw [← alookup_isSome_iff] at hm
      rw [hnone] at hm
      simp at hm
    have hsecond : (alookup (start_writer w d true).1.jobs d).isSome := by
      rw [hfirst]
      simp [alookup_aset_self]
    have hw1 := start_writer_exists_fail (w := (start_writer w d true).1) openOk hsecond
    refine ⟨by rw [hfirst], by rw [hw1], by rw [hw1], ?_⟩
    rw [hw1, hfirst]
    exact countKey_eq_one_of_aset_absent w.jobs d _ hmem

/-- Closed instance of `C4_one_job_per_device`: start, start again, on a
fresh writer for device "AA". -/
theorem C4_one_job_per_device_witness :
    (start_writer c1_writer0 "AA" true).2 = true ∧
    (start_writer (start_writer c1_writer0 "AA" true).1 "AA" true).2 = false ∧
    (start_writer (start_writer c1_writer0 "AA" true).1 "AA" true).1 =
      (start_writer c1_writer0 "AA" true).1 ∧
    countKey (start_writer (start_writer c1_writer0 "AA" true).1 "AA" true).1.jobs "AA" = 1 :=
  (C4_one_job_per_device c1_writer0 "AA" ⟨"AA", 0⟩ true true).2.2
    List.Pairwise.nil (by decide)

/-! ## Claim C1 -/

/-- C1 counterexample: the claim that every unit accepted before
`stop_writer` is still written before finalization is false.  Device "AA"
starts a writer, one unit is accepted into the queue, `stop_writer` marks
the job `STOPPING`, a later add is rejected; the consumer then dequeues
the previously accepted unit but — the job being `STOPPING` — skips the
write, and on its next empty-queue poll finalizes the job having written
nothing: the accepted unit is lost at teardown. -/
theorem C1_counterexample :
    (start_writer c1_writer0 "AA" true).2 = true ∧
    (add_data c1_after_start c1_unit).2 = true ∧
    (stop_writer c1_after_add "AA").2 = true ∧
    (add_data c1_after_stop ⟨"AA", 6⟩).2 = false ∧
    c1_after_stop.data_queue = [c1_unit] ∧
    c1_after_drain.data_queue = [] ∧
    c1_after_drain.written = [] ∧
    c1_final.jobs = [] ∧
    c1_final.finalized = [("AA", ⟨0, 0⟩)] ∧
    c1_final.written = [] := by
  decide

/-- C1 (amended): after `stop_writer` marks a job `STOPPING`, any later
`add` for that device is rejected, and the job is finalized only once the
consumer observes an empty queue; but the units for that device that were
accepted before the stop are dequeued and discarded without being written
(`_process_data` skips the write for a `STOPPING` job), so previously
accepted unwritten units are dropped at teardown, not flushed. -/
theorem C1_stop_discards_queued {Dev : Type} [DecidableEq Dev] (w : WriterThread Dev)
    (d : Dev) (u : DataUnit Dev) (j : WriterJob) (rest : List (DataUnit Dev))
    (writeOk : Bool) :
    (alookup w.jobs d = some j →
      stop_writer w d =
        ({ w with jobs := aset w.jobs d ({ j with state := WriterState.STOPPING }) }, true)) ∧
    (alookup w.jobs u.device_address = some j → j.state = WriterState.STOPPING →
      add_data w u = (w, false)) ∧
    (w.data_queue = u :: rest → (run_step w writeOk).finalized = w.finalized) ∧
    (alookup w.jobs u.device_address = some j → j.state = WriterState.STOPPING →
      w.data_queue = u :: rest →
      run_step w writeOk = { w with data_queue := rest }) ∧
    (w.data_queue = [] → w.jobs = [(d, j)] → j.state = WriterState.STOPPING →
      run_step w writeOk =
        { w with jobs := [], finalized := w.finalized ++ [(d, j.stats)] }) := by
  refine ⟨?_, ?_, ?_, ?_, ?_⟩
  · intro hj
    unfold stop_writer
    rw [hj]
  · intro hj hs
    unfold add_data
    rw [hj]
    dsimp only
    rw [if_pos (by simp [hs])]
  · intro hq
    unfold run_step
    rw [hq]
    exact process_data_finalized _ u writeOk
  · intro hj hs hq
    unfold run_step
    rw [hq]
    exact process_data_stopping writeOk hj hs
  · intro hq hjobs hs
    unfold run_step
    rw [hq]
    unfold check_stopping_writers
    rw [hjobs]
    have hfilter : List.filter (fun p => decide (p.2.state = WriterState.STOPPING))
        [(d, j)] = [(d, j)] := by
      simp [List.filter_cons, hs]
    rw [hfilter]
    show finalize_writer w d = _
    unfold finalize_writer
    rw [hjobs]
    simp [alookup, aerase, hjobs, hq]

/-- Closed instance of `C1_stop_discards_queued`: a `STOPPING` job for
device "AA" with one queued unit rejects a new add, drops the queued unit
unwritten, and finalizes on the empty-queue poll. -/
theorem C1_stop_discards_queued_witness :
    add_data
        { jobs := [("AA", ⟨WriterState.STOPPING, ⟨2, 1⟩⟩)], data_queue := [⟨"AA", 5⟩],
          queue_maxsize := 1000, written := [], finalized := [] } ⟨"AA", 6⟩ =
      ({ jobs := [("AA", ⟨WriterState.STOPPING, ⟨2, 1⟩⟩)], data_queue := [⟨"AA", 5⟩],
         queue_maxsize := 1000, written := [], finalized := [] }, false) ∧
    run_step
        { jobs := [("AA", ⟨WriterState.STOPPING, ⟨2, 1⟩⟩)], data_queue := [⟨"AA", 5⟩],
          queue_maxsize := 1000, written := [], finalized := [] } true =
      { jobs := [("AA", ⟨WriterState.STOPPING, ⟨2, 1⟩⟩)], data_queue := [],
        queue_maxsize := 1000, written := [], finalized := [] } ∧
    run_step
        { jobs := [("AA", ⟨WriterState.STOPPING, ⟨2, 1⟩⟩)], data_queue := [],
          queue_maxsize := 1000, written := [], finalized := [] } true =
      { jobs := [], data_queue := [], queue_maxsize := 1000, written := [],
        finalized := [("AA", ⟨2, 1⟩)] } :=
  ⟨(C1_stop_discards_queued
      { jobs := [("AA", ⟨WriterState.STOPPING, ⟨2, 1⟩⟩)], data_queue := [⟨"AA", 5⟩],
        queue_maxsize := 1000, written := [], finalized := [] }
      "AA" ⟨"AA", 6⟩ ⟨WriterState.STOPPING, ⟨2, 1⟩⟩ [] true).2.1 (by decide) (by decide),
   (C1_stop_discards_queued
      { jobs := [("AA", ⟨WriterState.STOPPING, ⟨2, 1⟩⟩)], data_queue := [⟨"AA", 5⟩],
        queue_maxsize := 1000, written := [], finalized := [] }
      "AA" ⟨"AA", 5⟩ ⟨WriterState.STOPPING, ⟨2, 1⟩⟩ [] true).2.2.2.1
     (by decide) (by decide) (by decide),
   (C1_stop_discards_queued
      { jobs := [("AA", ⟨WriterState.STOPPING, ⟨2, 1⟩⟩)], data_queue := [],
        queue_maxsize := 1000, written := [], finalized := [] }
      "AA" ⟨"AA", 5⟩ ⟨WriterState.STOPPING, ⟨2, 1⟩⟩ [] true).2.2.2.2
     (by decide) (by decide) (by decide)⟩

/-! ## Helper lemmas: reconnection loop -/

theorem attemptsCount_cons_sleep (delay : ℚ) (tr : List RcEvent) :
    attemptsCount (RcEvent.sleepDelay delay :: tr) = attemptsCount tr := by
  simp [attemptsCount, List.filter_cons]

theorem attemptsCount_cons_attempt (i : Nat) (tr : List RcEvent) :
    attemptsCount (RcEvent.attempt i :: tr) = attemptsCount tr + 1 := by
  simp [attemptsCount, List.filter_cons]

theorem attemptsCount_reconnect_loop_le (manual connectOk : Nat → Bool) (delay : ℚ) :
    ∀ k i, attemptsCount (reconnect_loop manual connectOk delay k i) ≤ k := by
  intro k
  induction k with
  | zero => intro i; simp [reconnect_loop, attemptsCount]
  | succ k ih =>
    intro i
    unfold reconnect_loop
    split
    · simp [attemptsCount]
    · rw [attemptsCount_cons_sleep, attemptsCount_cons_attempt]
      split
      · simp [attemptsCount]
      · have := ih (i + 1)
        omega

theorem attempt_preceded_by_sleep (manual connectOk : Nat → Bool) (delay : ℚ) :
    ∀ k i jj m, (reconnect_loop manual connectOk delay k i).get? jj =
        some (RcEvent.attempt m) →
      0 < jj ∧ (reconnect_loop manual connectOk delay k i).get? (jj - 1) =
        some (RcEvent.sleepDelay delay) := by
  intro k
  induction k with
  | zero => intro i jj m h; simp [reconnect_loop] at h
  | succ k ih =>
    intro i jj m h
    unfold reconnect_loop at h ⊢
    split at h
    · simp at h
    · rename_i hm
      rw [if_neg hm]
      match jj with
      | 0 => simp at h
      | 1 => exact ⟨Nat.one_pos, rfl⟩
      | n + 2 =>
        rw [List.get?_cons_succ, List.get?_cons_succ] at h
        split at h
        · simp at h
        · rename_i hc
          obtain ⟨hpos, hprev⟩ := ih (i + 1) n m h
          refine ⟨by omega, ?_⟩
          obtain ⟨n', rfl⟩ : ∃ n', n = n' + 1 := ⟨n - 1, by omega⟩
          rw [show n' + 1 + 2 - 1 = n' + 2 from rfl, List.get?_cons_succ, List.get?_cons_succ]
          rw [if_neg hc]
          simpa using hprev

theorem attempt_mem_reconnect_loop (manual connectOk : Nat → Bool) (delay : ℚ) :
    ∀ k i m, RcEvent.attempt m ∈ reconnect_loop manual connectOk delay k i →
      i ≤ m ∧ manual m = false ∧
        ∀ j2, i ≤ j2 → j2 < m → connectOk j2 = false ∧ manual j2 = false := by
  intro k
  induction k with
  | zero => intro i m h; simp [reconnect_loop] at h
  | succ k ih =>
    intro i m h
    unfold reconnect_loop at h
    split at h
    · simp at h
    · rename_i hm
      simp only [List.mem_cons] at h
      rcases h with h | h | h
      · cases h
      · cases h
        refine ⟨Nat.le_refl i, by simpa using hm, ?_⟩
        intro j2 h1 h2
        omega
      · split at h
        · simp at h
        · rename_i hc
          obtain ⟨him, hmm, hall⟩ := ih (i + 1) m h
          refine ⟨by omega, hmm, ?_⟩
          intro j2 hj1 hj2
          by_cases hji : j2 = i
          · subst hji
            exact ⟨by simpa using hc, by simpa using hm⟩
          · exact hall j2 (by omega) hj2

/-! ## Claim C5 -/

/-- C5: the reconnection loop for an unexpectedly disconnected IMU device
performs at most `reconnect_attempts` connect attempts; the callback does
not even schedule the loop when the manual-disconnect flag is set, and a
flag set before the first iteration yields an empty trace (zero attempts);
every attempt is immediately preceded by a sleep of the configured fixed
delay; and an attempt with index `m` happens only if the flag was clear at
iteration `m` and every earlier iteration neither succeeded nor saw the
flag (the loop aborts early on success or on the flag becoming set). -/
theorem C5_reconnect_bounded (manual connectOk : Nat → Bool) (N : Nat) (delay : ℚ) :
    attemptsCount (reconnect_device_task manual connectOk N delay) ≤ N ∧
    (∀ task_exists, shouldScheduleReconnect true task_exists = false) ∧
    (manual 0 = true → reconnect_device_task manual connectOk N delay = []) ∧
    (∀ jj m, (reconnect_device_task manual connectOk N delay).get? jj =
        some (RcEvent.attempt m) →
      0 < jj ∧ (reconnect_device_task manual connectOk N delay).get? (jj - 1) =
        some (RcEvent.sleepDelay delay)) ∧
    (∀ m, RcEvent.attempt m ∈ reconnect_device_task manual connectOk N delay →
      manual m = false ∧ ∀ j2, j2 < m → connectOk j2 = false ∧ manual j2 = false) := by
  refine ⟨attemptsCount_reconnect_loop_le manual connectOk delay N 0, fun _ => rfl, ?_, ?_, ?_⟩
  · intro h
    cases N with
    | zero => rfl
    | succ k =>
      unfold reconnect_device_task reconnect_loop
      rw [if_pos h]
  · intro jj m h
    exact attempt_preceded_by_sleep manual connectOk delay N 0 jj m h
  · intro m h
    obtain ⟨_, hm, hall⟩ := attempt_mem_reconnect_loop manual connectOk delay N 0 m h
    exact ⟨hm, fun j2 hj2 => hall j2 (Nat.zero_le j2) hj2⟩

/-- Closed instance of `C5_reconnect_bounded`: with the flag always clear
and every attempt failing, two configured attempts give the trace
sleep, attempt 0, sleep, attempt 1; with the flag set, the trace is
empty. -/
theorem C5_reconnect_bounded_witness :
    attemptsCount (reconnect_device_task (fun _ => false) (fun _ => false) 2 1) ≤ 2 ∧
    reconnect_device_task (fun _ => true) (fun _ => false) 2 1 = [] ∧
    (0 < 1 ∧ (reconnect_device_task (fun _ => false) (fun _ => false) 2 1).get? 0 =
      some (RcEvent.sleepDelay 1)) ∧
    ((fun (_ : Nat) => false) 1 = false ∧
      ∀ j2, j2 < 1 → (fun (_ : Nat) => false) j2 = false ∧ (fun (_ : Nat) => false) j2 = false) :=
  ⟨(C5_reconnect_bounded (fun _ => false) (fun _ => false) 2 1).1,
   (C5_reconnect_bounded (fun _ => true) (fun _ => false) 2 1).2.2.1 rfl,
   (C5_reconnect_bounded (fun _ => false) (fun _ => false) 2 1).2.2.2.1 1 0 (by decide),
   (C5_reconnect_bounded (fun _ => false) (fun _ => false) 2 1).2.2.2.2 1 (by decide)⟩

/-! ## Claim C7 -/

/-- C7: connect is idempotent on a `CONNECTED` device (success with no
state change), fails on a `CONNECTING` device, and fails when the
configured maximum number of concurrently connected devices is reached —
in each of these cases the whole manager, and hence every existing
connection's state, is left unchanged.  Both the IMU `connect_device` and
the camera `connect_camera` satisfy the guards; for an unknown camera id
the limit failure adds only a fresh `DISCONNECTED` record, leaving every
other camera's record unchanged. -/
theorem C7_connect_guards (m : IMUManagerS) (address : String) (taskOk : Bool)
    (dev : IMUDeviceR) (mc : CameraManagerS) (cid : Nat) (wd ht : Option Nat)
    (fps : Option ℚ) (res : Option OpenResult) (cam : CameraDeviceR) :
    (alookup m.devices address = some dev → dev.state = IMUConnectionState.CONNECTED →
      connect_device m address taskOk = (m, true)) ∧
    (alookup m.devices address = some dev → dev.state = IMUConnectionState.CONNECTING →
      connect_device m address taskOk = (m, false)) ∧
    (alookup m.devices address = some dev → dev.state ≠ IMUConnectionState.CONNECTED →
      dev.state ≠ IMUConnectionState.CONNECTING →
      m.max_devices ≤ connectedCount m.devices →
      connect_device m address taskOk = (m, false)) ∧
    (alookup mc.cameras cid = some cam → cam.state = CameraState.CONNECTED →
      connect_camera mc cid wd ht fps res = (mc, true)) ∧
    (alookup mc.cameras cid = some cam → cam.state = CameraState.CONNECTING →
      connect_camera mc cid wd ht fps res = (mc, false)) ∧
    (alookup mc.cameras cid = some cam → cam.state ≠ CameraState.CONNECTED →
      cam.state ≠ CameraState.CONNECTING →
      mc.max_cameras ≤ connectedCameraCount mc.cameras →
      connect_camera mc cid wd ht fps res = (mc, false)) ∧
    (alookup mc.cameras cid = none →
      mc.max_cameras ≤ connectedCameraCount
        (aset mc.cameras cid
          { name := get_camera_name mc cid, width := mc.default_width,
            height := mc.default_height, fps := mc.default_fps,
            state := CameraState.DISCONNECTED }) →
      (connect_camera mc cid wd ht fps res).2 = false ∧
      ∀ k, k ≠ cid →
        alookup (connect_camera mc cid wd ht fps res).1.cameras k =
          alookup mc.cameras k) := by
  have hcam0 : ∀ (h : alookup mc.cameras cid = some cam),
      connect_camera mc cid wd ht fps res =
        (if cam.state = CameraState.CONNECTED then (mc, true)
         else if cam.state = CameraState.CONNECTING then (mc, false)
         else if mc.max_cameras ≤ connectedCameraCount mc.cameras then (mc, false)
         else
           let cam1 := { cam with width := wd.getD mc.default_width,
                                  height := ht.getD mc.default_height,
                                  fps := fps.getD mc.default_fps }
           match res with
           | some r =>
             ({ mc with cameras :=
                          aset mc.cameras cid
                            ({ cam1 with width := r.actual_width, height := r.actual_height,
                                         fps := r.actual_fps,
                                         state := CameraState.CONNECTED }) }, true)
           | none =>
             ({ mc with cameras :=
                          aset mc.cameras cid ({ cam1 with state := CameraState.ERROR }) },
              false)) := by
    intro h
    unfold connect_camera
    rw [if_pos (by rw [h]; rfl)]
    dsimp only
    rw [h]
  refine ⟨?_, ?_, ?_, ?_, ?_, ?_, ?_⟩
  · intro hd h1
    unfold connect_device
    rw [hd]
    dsimp only
    rw [if_pos h1]
  · intro hd h2
    unfold connect_device
    rw [hd]
    dsimp only
    rw [if_neg (by rw [h2]; exact fun hh => by cases hh), if_pos h2]
  · intro hd h1 h2 h3
    unfold connect_device
    rw [hd]
    dsimp only
    rw [if_neg h1, if_neg h2, if_pos h3]
  · intro hc h1
    rw [hcam0 hc, if_pos h1]
  · intro hc h2
    rw [hcam0 hc, if_neg (by rw [h2]; exact fun hh => by cases hh), if_pos h2]
  · intro hc h1 h2 h3
    rw [hcam0 hc, if_neg h1, if_neg h2, if_pos h3]
  · intro hnone hlimit
    have hres : connect_camera mc cid wd ht fps res =
        ({ mc with cameras :=
                     aset mc.cameras cid
                       { name := get_camera_name mc cid, width := mc.default_width,
                         height := mc.default_height, fps := mc.default_fps,
                         state := CameraState.DISCONNECTED } }, false) := by
      unfold connect_camera
      rw [if_neg (by rw [hnone]; simp)]
      dsimp only
      rw [alookup_aset_self]
      dsimp only
      rw [if_neg (by exact fun hh => by cases hh), if_neg (by exact fun hh => by cases hh),
        if_pos hlimit]
    rw [hres]
    exact ⟨rfl, fun k hk => alookup_aset_ne mc.cameras _ (fun hh => hk hh.symm)⟩

/-- Closed instance of `C7_connect_guards`: a manager at its limit of one
connected device rejects connecting a second, disconnected device and is
left unchanged; connect on the already-connected device reports success
unchanged. -/
theorem C7_connect_guards_witness :
    connect_device
        { devices := [("D1", { name := "A", rssi := none,
                               state := IMUConnectionState.CONNECTED,
                               manual_disconnect := false, custom_name := none }),
                      ("D2", { name := "B", rssi := none,
                               state := IMUConnectionState.DISCONNECTED,
                               manual_disconnect := false, custom_name := none })],
          max_devices := 1, device_custom_names := [], is_scanning := false }
        "D2" true =
      ({ devices := [("D1", { name := "A", rssi := none,
                              state := IMUConnectionState.CONNECTED,
                              manual_disconnect := false, custom_name := none }),
                     ("D2", { name := "B", rssi := none,
                              state := IMUConnectionState.DISCONNECTED,
                              manual_disconnect := false, custom_name := none })],
         max_devices := 1, device_custom_names := [], is_scanning := false }, false) :=
  (C7_connect_guards
      { devices := [("D1", { name := "A", rssi := none,
                             state := IMUConnectionState.CONNECTED,
                             manual_disconnect := false, custom_name := none }),
                    ("D2", { name := "B", rssi := none,
                             state := IMUConnectionState.DISCONNECTED,
                             manual_disconnect := false, custom_name := none })],
        max_devices := 1, device_custom_names := [], is_scanning := false }
      "D2" true
      { name := "B", rssi := none, state := IMUConnectionState.DISCONNECTED,
        manual_disconnect := false, custom_name := none }
      { cameras := [], max_cameras := 0, device_names := [], default_width := 0,
        default_height := 0, default_fps := 0 }
      0 none none none none
      { name := "", width := 0, height := 0, fps := 0,
        state := CameraState.DISCONNECTED }).2.2.1
    (by decide) (by decide) (by decide) (by decide)

/-! ## Helper lemmas: process supervisor -/

theorem alookup_of_mem_nodup {K V : Type} [DecidableEq K] :
    ∀ {l : List (K × V)} {k : K} {v : V}, (l.map Prod.fst).Nodup → (k, v) ∈ l →
      alookup l k = some v := by
  intro l
  induction l with
  | nil => intro k v _ hm; simp at hm
  | cons p rest ih =>
    intro k v hnd hm
    rcases List.mem_cons.mp hm with rfl | hm'
    · simp [alookup]
    · have hk : k ∈ rest.map Prod.fst := List.mem_map_of_mem Prod.fst hm'
      have hp : p.1 ≠ k := by
        intro hpk
        have : p.1 ∉ rest.map Prod.fst := (List.nodup_cons.mp (by simpa using hnd)).1
        exact this (hpk ▸ hk)
      simp only [alookup, if_neg hp]
      exact ih (List.nodup_cons.mp (by simpa using hnd)).2 hm'

theorem send_command_spec (procs : List (String × ProcInfo))
    (hnd : (procs.map Prod.fst).Nodup) (p : String × ProcInfo) (hp : p ∈ procs) :
    send_command procs p.1 =
      (decide (p.2.status = ProcessStatus.RUNNING) && p.2.hasProcess && p.2.writeOk) := by
  have hl : alookup procs p.1 = some p.2 := alookup_of_mem_nodup hnd hp
  unfold send_command
  rw [hl]
  dsimp only
  by_cases hs : p.2.status = ProcessStatus.RUNNING
  · cases hh : p.2.hasProcess
    · rw [if_pos (Or.inr (by simp [hh]))]
      simp [hs, hh]
    · rw [if_neg (by simp [hs, hh])]
      simp [hs, hh]
  · rw [if_pos (Or.inl hs)]
    simp [hs]

/-! ## Claim C8 -/

/-- C8: with distinct process ids, `send_command_to_all` returns failure
whenever no tracked process is `RUNNING`, and returns success exactly when
some `RUNNING` process with an attached handle accepted the written
command line — regardless of how many other processes are not running or
failed the write. -/
theorem C8_broadcast (procs : List (String × ProcInfo))
    (hnd : (procs.map Prod.fst).Nodup) :
    ((∀ p ∈ procs, p.2.status ≠ ProcessStatus.RUNNING) →
      send_command_to_all procs = false) ∧
    (send_command_to_all procs = true ↔
      ∃ p ∈ procs, p.2.status = ProcessStatus.RUNNING ∧
        p.2.hasProcess = true ∧ p.2.writeOk = true) := by
  have hsuc : List.filter
      (fun p => decide (p.2.status = ProcessStatus.RUNNING) && send_command procs p.1) procs =
      List.filter
        (fun p => decide (p.2.status = ProcessStatus.RUNNING) &&
          p.2.hasProcess && p.2.writeOk) procs := by
    refine List.filter_congr ?_
    intro p hp
    rw [send_command_spec procs hnd p hp]
    cases hdec : decide (p.2.status = ProcessStatus.RUNNING) <;> simp
  constructor
  · intro hnone
    unfold send_command_to_all
    have hfil : List.filter (fun p => decide (p.2.status = ProcessStatus.RUNNING)) procs = [] :=
      List.filter_eq_nil_iff.mpr (fun p hp => by simp [hnone p hp])
    simp [hfil]
  · unfold send_command_to_all
    dsimp only
    rw [hsuc]
    constructor
    · intro h
      split at h
      · cases h
      · have hpos : 0 < List.countP
            (fun p => decide (p.2.status = ProcessStatus.RUNNING) &&
              p.2.hasProcess && p.2.writeOk) procs := by
          rw [List.countP_eq_length_filter]
          simpa using h
        obtain ⟨p, hp, hq⟩ := List.countP_pos_iff.mp hpos
        refine ⟨p, hp, ?_⟩
        simpa [and_assoc] using hq
    · rintro ⟨p, hp, h1, h2, h3⟩
      have hqp : (decide (p.2.status = ProcessStatus.RUNNING) &&
          p.2.hasProcess && p.2.writeOk) = true := by
        simp [h1, h2, h3]
      have hpos : 0 < (List.filter
          (fun p => decide (p.2.status = ProcessStatus.RUNNING) &&
            p.2.hasProcess && p.2.writeOk) procs).length := by
        rw [← List.countP_eq_length_filter]
        exact List.countP_pos_iff.mpr ⟨p, hp, hqp⟩
      have htot : (List.filter
          (fun p => decide (p.2.status = ProcessStatus.RUNNING)) procs).length ≠ 0 := by
        intro h0
        rw [List.length_eq_zero] at h0
        have hmem : p ∈ List.filter
            (fun p => decide (p.2.status = ProcessStatus.RUNNING)) procs :=
          List.mem_filter.mpr ⟨hp, by simp [h1]⟩
        rw [h0] at hmem
        cases hmem
      rw [if_neg htot]
      simpa using hpos

/-- Closed instance of `C8_broadcast`: among a stopped process, a running
process whose write fails and a running process whose write succeeds, the
broadcast succeeds; with only non-running processes it fails. -/
theorem C8_broadcast_witness :
    send_command_to_all
        [("a", ⟨ProcessStatus.RUNNING, true, false⟩),
         ("b", ⟨ProcessStatus.STOPPED, true, true⟩),
         ("c", ⟨ProcessStatus.RUNNING, true, true⟩)] = true ∧
    send_command_to_all [("b", ⟨ProcessStatus.STOPPED, true, true⟩)] = false :=
  ⟨(C8_broadcast
      [("a", ⟨ProcessStatus.RUNNING, true, false⟩),
       ("b", ⟨ProcessStatus.STOPPED, true, true⟩),
       ("c", ⟨ProcessStatus.RUNNING, true, true⟩)] (by decide)).2.mpr
    ⟨("c", ⟨ProcessStatus.RUNNING, true, true⟩), by decide, rfl, rfl, rfl⟩,
   (C8_broadcast [("b", ⟨ProcessStatus.STOPPED, true, true⟩)] (by decide)).1
    (by decide)⟩

/-! ## Helper lemmas: scan -/

theorem keys_scanStep (cn : List (String × String)) (devs : List (String × IMUDeviceR))
    (a : Advert) (p : String × IMUDeviceR) (hp : p ∈ scanStep cn devs a) :
    p.1 ∈ devs.map Prod.fst ∨ p.1 = a.address := by
  have haset : ∀ v, p ∈ aset devs a.address v → p.1 ∈ devs.map Prod.fst ∨ p.1 = a.address := by
    intro v hv
    by_cases hm : a.address ∈ devs.map Prod.fst
    · left
      rw [← keys_aset_mem devs a.address v hm]
      exact List.mem_map_of_mem Prod.fst hv
    · have := List.mem_map_of_mem Prod.fst hv
      rw [keys_aset_not_mem devs a.address v hm] at this
      rcases List.mem_append.mp this with h | h
      · exact Or.inl h
      · exact Or.inr (by simpa using h)
  unfold scanStep at hp
  cases halookup : alookup devs a.address with
  | none =>
    rw [halookup] at hp
    exact haset _ hp
  | some d =>
    rw [halookup] at hp
    exact haset _ hp

theorem mem_foldl_scanStep (cn : List (String × String)) :
    ∀ (l : List Advert) (acc : List (String × IMUDeviceR)) (p : String × IMUDeviceR),
      p ∈ l.foldl (scanStep cn) acc →
      p.1 ∈ acc.map Prod.fst ∨ ∃ a ∈ l, a.address = p.1 := by
  intro l
  induction l with
  | nil =>
    intro acc p hp
    exact Or.inl (List.mem_map_of_mem Prod.fst hp)
  | cons a rest ih =>
    intro acc p hp
    rcases ih (scanStep cn acc a) p hp with hkey | ⟨b, hb, hbp⟩
    · -- the key comes from the accumulator after the first step
      have : p.1 ∈ acc.map Prod.fst ∨ p.1 = a.address := by
        rcases List.mem_map.mp hkey with ⟨q, hq, hq1⟩
        rcases keys_scanStep cn acc a q hq with h | h
        · exact Or.inl (hq1 ▸ h)
        · exact Or.inr (hq1 ▸ h)
      rcases this with h | h
      · exact Or.inl h
      · exact Or.inr ⟨a, List.mem_cons_self a rest, h.symm⟩
    · exact Or.inr ⟨b, List.mem_cons_of_mem a hb, hbp⟩

/-! ## Claim C9 -/

/-- C9 counterexample: the claim that a device already known before the
sweep keeps its existing record with only its RSSI refreshed is false.
Device "D1" is known and `CONNECTED` before the scan; the sweep
rediscovers the same address, and the post-scan record is a freshly built
`DISCONNECTED` record (only the within-sweep duplicate path refreshes
RSSI) — the prior record, including its connection state, is discarded
because `start_scan` clears the device list first. -/
theorem C9_counterexample :
    (start_scan c9_manager [c9_advert] (some ["imu"])).devices =
      [("D1", { name := "IMU-A", rssi := some (-40),
                state := IMUConnectionState.DISCONNECTED,
                manual_disconnect := false, custom_name := none })] ∧
    alookup c9_manager.devices "D1" =
      some { name := "IMU-A", rssi := some (-70),
             state := IMUConnectionState.CONNECTED,
             manual_disconnect := false, custom_name := none } := by
  constructor
  · rfl
  · rfl

/-- C9 (amended): `start_scan` (when not already scanning) first clears
the device list and rebuilds it from this sweep alone: every post-scan
record's address comes from an advertisement of this sweep that passed the
case-insensitive keyword filter; the result does not depend on the
previously known devices; and only a duplicate advertisement for an
address already added during the same sweep merely refreshes that record's
RSSI. -/
theorem C9_scan_rebuilds (m m2 : IMUManagerS) (found : List Advert)
    (filt : Option (List String)) :
    (m.is_scanning = false →
      ∀ p ∈ (start_scan m found filt).devices,
        ∃ a ∈ found, a.address = p.1 ∧ nameMatches filt a.adv_name = true) ∧
    (m.is_scanning = false → m2.is_scanning = false →
      m.device_custom_names = m2.device_custom_names →
      (start_scan m found filt).devices = (start_scan m2 found filt).devices) ∧
    (∀ (devs : List (String × IMUDeviceR)) (a : Advert) (d : IMUDeviceR)
        (cn : List (String × String)), alookup devs a.address = some d →
      scanStep cn devs a = aset devs a.address ({ d with rssi := a.rssi })) := by
  refine ⟨?_, ?_, ?_⟩
  · intro hscan p hp
    rw [show (start_scan m found filt).devices =
        (found.filter (fun a => nameMatches filt a.adv_name)).foldl
          (scanStep m.device_custom_names) [] from by simp [start_scan, hscan]] at hp
    rcases mem_foldl_scanStep m.device_custom_names _ [] p hp with h | ⟨a, ha, hap⟩
    · simp at h
    · obtain ⟨haf, ham⟩ := List.mem_filter.mp ha
      exact ⟨a, haf, hap, ham⟩
  · intro h1 h2 hcn
    simp [start_scan, h1, h2, hcn]
  · intro devs a d cn h
    unfold scanStep
    rw [h]

/-- Closed instance of `C9_scan_rebuilds`: the sole record produced by the
counterexample sweep comes from the advertisement for "D1", which passed
the "imu" keyword filter. -/
theorem C9_scan_rebuilds_witness :
    ∃ a ∈ [c9_advert], a.address =
        ("D1", { name := "IMU-A", rssi := some (-40),
                 state := IMUConnectionState.DISCONNECTED,
                 manual_disconnect := false,
                 custom_name := none : IMUDeviceR }).1 ∧
      nameMatches (some ["imu"]) a.adv_name = true :=
  (C9_scan_rebuilds c9_manager c9_manager [c9_advert] (some ["imu"])).1 rfl
    ("D1", { name := "IMU-A", rssi := some (-40),
             state := IMUConnectionState.DISCONNECTED,
             manual_disconnect := false, custom_name := none })
    (by decide)

end WaveTracker
